import Mathlib

/-!
Shallow embedding of the braindecode cropped-decoding core:

* `src/braindecode/classifier.py` — `EEGClassifier.get_iterator`,
  `EEGClassifier.on_batch_end`,
  `EEGClassifier.predict_with_supercrop_inds_and_ys`, and
  `ThrowAwayIndexLoader.__iter__`;
* `src/braindecode/datasets/datasets.py` — `MOABBDataset.split`,
  `_windows_dataset_ids_to_supercrop_ids`, `_supercrop_ids_of_windows`,
  `_split_ids`;
* `src/braindecode/datasets/base.py` — `WindowsDataset.__getitem__`.

Machine-level detail that the claims do not touch (actual tensor contents,
mne/pandas internals) is abstracted to lists of integers; every control-flow
decision of the Python source (length tests, `hasattr` tests, assertion
failures, the `ValueError` that `np.concatenate` raises on an empty argument
list, pandas/numpy negative-index semantics) is modelled explicitly.
-/

namespace Braindecode

/-! ### Batch values

A collated batch element is either tensor-like (it then has a `.type` dtype
cast method, so `hasattr(x, 'type')` is true) or a plain container without
one.  Only the dtype and the per-row values matter for the claims. -/

/-- Element dtype of a batched array, as far as the loader's coercion step
(`x.type(torch.float32)`, `y.type(torch.int64)`) can observe it. -/
inductive Dtype
  | float32
  | float64
  | int32
  | int64
  | other
  deriving DecidableEq

/-- A batched array: `hasType` models `hasattr(x, 'type')` (true exactly for
tensor-like values carrying the `.type` cast method), `dtype` its element
type, `vals` one representative value per batch row. -/
structure Arr where
  hasType : Bool
  dtype : Dtype
  vals : List Int
  deriving DecidableEq

/-- The result of `x.type(d)`: a dtype cast; row values are unchanged. -/
def Arr.typeCast (a : Arr) (d : Dtype) : Arr :=
  { a with dtype := d }

/-- Collated provenance of one batch: the third batch element `i` is a list
of three batched tensors `i[0] = i_supercrop_in_trial`,
`i[1] = i_start_in_trial`, `i[2] = i_stop_in_trial`. -/
structure Prov where
  iwin : List Int
  istart : List Int
  istop : List Int
  deriving DecidableEq

/-- A raw batch as produced by the underlying `DataLoader`: either an
`(x, y)` pair or an `(x, y, i)` triple (`len(batch) == 3`). -/
inductive RawBatch
  | pair (x y : Arr)
  | triple (x y : Arr) (i : Prov)
  deriving DecidableEq

/-- First element of a raw batch. -/
def RawBatch.x : RawBatch → Arr
  | .pair x _ => x
  | .triple x _ _ => x

/-- Second element of a raw batch. -/
def RawBatch.y : RawBatch → Arr
  | .pair _ y => y
  | .triple _ y _ => y

/-- A batch element viewed as an untyped Python tuple component. -/
inductive Elem
  | arr (a : Arr)
  | prov (p : Prov)
  deriving DecidableEq

/-- A raw batch as the untyped tuple the iterator hands out when it is
returned unchanged (`drop_index=False` in `EEGClassifier.get_iterator`). -/
def RawBatch.toTuple : RawBatch → List Elem
  | .pair x y => [.arr x, .arr y]
  | .triple x y i => [.arr x, .arr y, .prov i]

/-! ### ThrowAwayIndexLoader (`classifier.py` lines 112-132) -/

/-- Dtype coercion step of `ThrowAwayIndexLoader.__iter__` (lines 129-131):
`if hasattr(x, 'type'): x = x.type(torch.float32); y = y.type(torch.int64)`.
Values lacking the `.type` method pass through unchanged. -/
def coerceXY (x y : Arr) : Arr × Arr :=
  if x.hasType then (x.typeCast .float32, y.typeCast .int64) else (x, y)

/-- One loop iteration of `ThrowAwayIndexLoader.__iter__` (lines 120-132):
a 3-element batch stashes its provenance on the net
(`self.net._last_supercrop_inds = i`, overwriting the slot) and is cut down
to `(x, y)`; a 2-element batch leaves the slot alone.  Returns the new slot
value and the emitted pair. -/
def loaderStep (slot : Option Prov) : RawBatch → Option Prov × (Arr × Arr)
  | .triple x y i => (some i, coerceXY x y)
  | .pair x y => (slot, coerceXY x y)

/-- The whole `ThrowAwayIndexLoader.__iter__` loop over a finite raw batch
stream: threads the `_last_supercrop_inds` slot through `loaderStep` and
collects the emitted `(x, y)` pairs in order. -/
def throwAwayIter (slot : Option Prov) : List RawBatch → Option Prov × List (Arr × Arr)
  | [] => (slot, [])
  | b :: bs =>
      let step := loaderStep slot b
      let rest := throwAwayIter step.1 bs
      (rest.1, step.2 :: rest.2)

/-- An emitted `(x, y)` pair as an untyped Python tuple. -/
def pairToTuple (xy : Arr × Arr) : List Elem :=
  [.arr xy.1, .arr xy.2]

/-- `EEGClassifier.get_iterator` (lines 41-46): with `drop_index=True` wrap
the underlying iterator in a `ThrowAwayIndexLoader`, otherwise return the
underlying iterator unchanged.  The result is the emitted batch stream,
each batch as an untyped tuple. -/
def get_iterator (slot : Option Prov) (stream : List RawBatch) (drop_index : Bool) :
    List (List Elem) :=
  if drop_index then (throwAwayIter slot stream).2.map pairToTuple
  else stream.map RawBatch.toTuple

/-! ### Callbacks and `EEGClassifier.on_batch_end` (lines 49-65) -/

/-- A skorch callback as `on_batch_end` observes it: its class name, whether
it has a `supercrop_inds_` attribute, its `on_train` flag, and its running
provenance log `supercrop_inds_`. -/
structure Callback where
  className : String
  has_supercrop_inds : Bool
  on_train : Bool
  supercrop_inds : List Prov
  deriving DecidableEq

/-- The filter of `on_batch_end` lines 56-57: a callback qualifies when its
class is `CroppedTrialEpochScoring`, it has a `supercrop_inds_` attribute,
and `on_train == False`. -/
def isEpochCb (cb : Callback) : Bool :=
  cb.className == "CroppedTrialEpochScoring" && cb.has_supercrop_inds && !cb.on_train

/-- The `_default_callbacks` property (lines 89-109): epoch timer, train and
valid loss `BatchScoring`, and a print-log callback.  None of them is a
`CroppedTrialEpochScoring`, so none ever qualifies for `isEpochCb`. -/
def default_callbacks : List Callback :=
  [ { className := "EpochTimer", has_supercrop_inds := false,
      on_train := false, supercrop_inds := [] },
    { className := "BatchScoring", has_supercrop_inds := false,
      on_train := true, supercrop_inds := [] },
    { className := "BatchScoring", has_supercrop_inds := false,
      on_train := false, supercrop_inds := [] },
    { className := "PrintLog", has_supercrop_inds := false,
      on_train := false, supercrop_inds := [] } ]

/-- The trainer state the loader and hook share: the user-registered
callbacks `self.callbacks` and the single-slot provenance mailbox
`self._last_supercrop_inds` (`none` models the attribute being absent, so
`hasattr(self, '_last_supercrop_inds')` is false). -/
structure NetState where
  callbacks : List Callback
  last_supercrop_inds : Option Prov
  deriving DecidableEq

/-- Appending the pending provenance to one callback's log, applied to the
qualifying callbacks only (`cb.supercrop_inds_.append(...)`, line 64). -/
def appendInds (i : Prov) (cb : Callback) : Callback :=
  if isEpochCb cb then { cb with supercrop_inds := cb.supercrop_inds ++ [i] } else cb

/-- `EEGClassifier.on_batch_end` (lines 49-65).  In training mode it does
nothing.  Otherwise it filters `self._default_callbacks + self.callbacks`
for qualifying scoring callbacks; if any exist, the mailbox must be
occupied (`assert hasattr(self, '_last_supercrop_inds')`, an `AssertionError`
otherwise), its value is appended to every qualifying callback's
`supercrop_inds_` log, and the slot is deleted.  The default callbacks are
rebuilt on each property access and never qualify, so only the registered
callbacks are updated. -/
def on_batch_end (st : NetState) (training : Bool) : Except String NetState :=
  if training then .ok st
  else
    let cbs := default_callbacks ++ st.callbacks
    if (cbs.filter isEpochCb).length > 0 then
      match st.last_supercrop_inds with
      | none => .error "AssertionError: hasattr(self, _last_supercrop_inds)"
      | some i =>
          .ok { callbacks := st.callbacks.map (appendInds i),
                last_supercrop_inds := none }
    else .ok st

/-- One evaluation batch as the trainer executes it: the loader consumes one
raw batch (stashing provenance if present) and the post-batch hook then
runs with `training=False`. -/
def stepEval (st : NetState) (b : RawBatch) : Except String (NetState × (Arr × Arr)) :=
  let step := loaderStep st.last_supercrop_inds b
  match on_batch_end { st with last_supercrop_inds := step.1 } false with
  | .error m => .error m
  | .ok st2 => .ok (st2, step.2)

/-- A full evaluation pass: `stepEval` over every raw batch in order,
collecting the emitted pairs, stopping at the first failure. -/
def runEval (st : NetState) : List RawBatch → Except String (NetState × List (Arr × Arr))
  | [] => .ok (st, [])
  | b :: bs =>
      match stepEval st b with
      | .error m => .error m
      | .ok st1 =>
          match runEval st1.1 bs with
          | .error m => .error m
          | .ok rest => .ok (rest.1, st1.2 :: rest.2)

/-! ### CroppedPredictor
(`EEGClassifier.predict_with_supercrop_inds_and_ys`, lines 68-84) -/

/-- The four aligned output arrays of
`predict_with_supercrop_inds_and_ys`. -/
structure PredOut where
  preds : List (List Int)
  i_supercrop_in_trials : List Int
  i_supercrop_stops : List Int
  supercrop_ys : List Int
  deriving DecidableEq

/-- Number of rows of a raw `(X, y, i)` batch, read off its input array. -/
def batchSize (b : Arr × Arr × Prov) : Nat :=
  b.1.vals.length

/-- `EEGClassifier.predict_with_supercrop_inds_and_ys` (lines 68-84): iterate
`self.get_iterator(dataset, drop_index=False)` — the raw `(X, y, i)`
triples unchanged — and per batch record `i[0]`, `i[2]`,
`self.predict_proba(X)` and `y`; finally `np.concatenate` each of the four
per-batch lists in batch order.  `np.concatenate` raises a `ValueError`
when handed an empty list, which happens exactly when the iterator yields
no batch.  `predict_proba` is the trainer's abstract prediction function,
one output row per input row. -/
def predict_with_supercrop_inds_and_ys (predict_proba : Arr → List (List Int))
    (stream : List (Arr × Arr × Prov)) : Except String PredOut :=
  if stream.isEmpty then .error "ValueError: need at least one array to concatenate"
  else .ok
    { preds := (stream.map (fun b => predict_proba b.1)).flatten,
      i_supercrop_in_trials := (stream.map (fun b => b.2.2.iwin)).flatten,
      i_supercrop_stops := (stream.map (fun b => b.2.2.istop)).flatten,
      supercrop_ys := (stream.map (fun b => b.2.1.vals)).flatten }

/-! ### WindowsDataset (`base.py` lines 40-63) -/

/-- One window/supercrop of the windowed collection: its signal slice, its
label (`windows.events[:, -1]` at this row), and its three positional
metadata fields. -/
structure Window where
  data : List Int
  target : Int
  i_supercrop_in_trial : Int
  i_start_in_trial : Int
  i_stop_in_trial : Int
  deriving DecidableEq

/-- A `WindowsDataset`: the ordered window collection of one recording. -/
structure WindowsDataset where
  windows : List Window
  deriving DecidableEq

/-- `WindowsDataset.__len__`: `len(self.windows.events)`, the window
count. -/
def WindowsDataset.length (ds : WindowsDataset) : Nat :=
  ds.windows.length

/-- The tuple `__getitem__` builds for a resolved row `j`:
`(self.windows[j].get_data().squeeze(0), target[j], info)` with
`info = [i_supercrop_in_trial, i_start_in_trial, i_stop_in_trial]`. -/
def WindowsDataset.extract (ds : WindowsDataset) (j : Nat) :
    Option (List Int × Int × List Int) :=
  (ds.windows[j]?).map (fun w =>
    (w.data, w.target, [w.i_supercrop_in_trial, w.i_start_in_trial, w.i_stop_in_trial]))

/-- `WindowsDataset.__getitem__` (lines 56-60).  All three lookups it
performs — `self.windows.metadata.iloc[index]`, `target[index]` and
`self.windows[index]` — follow Python sequence-indexing semantics on a
length-`n` collection: `0 <= index < n` selects row `index`, a negative
`-n <= index < 0` wraps around and selects row `n + index`, and anything
else raises an `IndexError`. -/
def WindowsDataset.getitem (ds : WindowsDataset) (index : Int) :
    Except String (List Int × Int × List Int) :=
  let n : Int := ds.windows.length
  if 0 ≤ index ∧ index < n then
    match ds.extract index.toNat with
    | some r => .ok r
    | none => .error "IndexError"
  else if -n ≤ index ∧ index < 0 then
    match ds.extract (n + index).toNat with
    | some r => .ok r
    | none => .error "IndexError"
  else .error "IndexError"

/-! ### Concatenation and splitting (`datasets.py` lines 240-296)

`MOABBDataset` is a `torch.utils.data.ConcatDataset` of one `WindowsDataset`
per recording; the dependency's `ConcatDataset.cumsum` builds
`self.cumulative_sizes`, the running sum of the per-dataset lengths. -/

/-- Running-sum accumulator of `torch.utils.data.ConcatDataset.cumsum`. -/
def cumsumFrom (s : Nat) : List Nat → List Nat
  | [] => []
  | l :: ls => (s + l) :: cumsumFrom (s + l) ls

/-- `ConcatDataset.cumulative_sizes` for per-recording window counts
`sizes`: entry `k` is the total window count of the first `k + 1`
recordings. -/
def cumulative_sizes (sizes : List Nat) : List Nat :=
  cumsumFrom 0 sizes

/-- `i_starts = np.insert(cumulative_sizes[:-1], 0, [0])` from
`_supercrop_ids_of_windows` (line 283). -/
def i_starts (cum : List Nat) : List Nat :=
  0 :: cum.dropLast

/-- Python `range(a, b)`: the integers `a, a+1, …, b-1` (empty when
`b <= a`). -/
def pyRange (a b : Nat) : List Nat :=
  List.range' a (b - a)

/-- The index arithmetic of `_supercrop_ids_of_windows` (lines 281-288)
without the concatenation error: for each listed recording index, the
global range `range(i_starts[k], i_stops[k])`, all concatenated in listed
order. -/
def supercropIdsCore (cum : List Nat) (ws : List Nat) : List Nat :=
  ws.flatMap (fun k => pyRange ((i_starts cum).getD k 0) (cum.getD k 0))

/-- `_supercrop_ids_of_windows` (lines 281-288): translates recording
indices to global window indices and concatenates them with
`np.concatenate`, which raises a `ValueError` when the list of ranges is
empty, i.e. when the group contains zero recording indices. -/
def _supercrop_ids_of_windows (cum : List Nat) (ws : List Nat) : Except String (List Nat) :=
  if ws.isEmpty then .error "ValueError: need at least one array to concatenate"
  else .ok (supercropIdsCore cum ws)

/-- The recording-level metadata table `self.info`: its column names and one
row per recording mapping column names to values.  `MOABBDataset` builds it
with a default `RangeIndex`, so row label `i` is row position `i`. -/
structure InfoTable where
  columns : List String
  data : List (String → String)

/-- The values of column `p`, one per recording, in recording order. -/
def colVals (df : InfoTable) (p : String) : List String :=
  df.data.map (fun row => row p)

/-- The recording indices whose column-`p` value equals `v` — one group of
`df.groupby(p)`, with `group.index` in original row order. -/
def groupIdxs (df : InfoTable) (p : String) (v : String) : List Nat :=
  (List.range df.data.length).filter (fun i => (colVals df p).getD i "" == v)

/-- `_split_ids` (lines 291-296): `assert some_property in df` (with
`some_property=None` the membership test is false, so the assertion also
fails), then one `(value, recording indices)` group per distinct value of
the column.  pandas sorts the group keys; the order of groups is irrelevant
to every claim, so groups are listed by first appearance. -/
def _split_ids (df : InfoTable) (some_property : Option String) :
    Except String (List (String × List Nat)) :=
  match some_property with
  | none => .error "AssertionError: some_property in df"
  | some p =>
      if p ∈ df.columns then
        .ok ((colVals df p).dedup.map (fun v => (v, groupIdxs df p v)))
      else .error "AssertionError: some_property in df"

/-- A split name: a column value in property mode, a positional integer in
explicit-ids mode. -/
def SplitName : Type := String ⊕ Nat

instance : DecidableEq SplitName := by
  unfold SplitName
  infer_instance

/-- `_windows_dataset_ids_to_supercrop_ids` (lines 272-278): the loop over
the named groups, translating each to its global window indices; the
`ValueError` of an empty group surfaces at the first empty group. -/
def _windows_dataset_ids_to_supercrop_ids (cum : List Nat) :
    List (SplitName × List Nat) → Except String (List (SplitName × List Nat))
  | [] => .ok []
  | pr :: rest =>
      match _supercrop_ids_of_windows cum pr.2 with
      | .error m => .error m
      | .ok ids =>
          match _windows_dataset_ids_to_supercrop_ids cum rest with
          | .error m => .error m
          | .ok tl => .ok ((pr.1, ids) :: tl)

/-- `MOABBDataset.split` (lines 240-269).  `assert split_ids is None or
some_property is None` rejects the call when both arguments are given;
with `split_ids=None` the groups come from `_split_ids` (which itself
asserts the property is a column, failing also when both arguments are
`None`); otherwise the caller-supplied lists are enumerated positionally
`0, 1, 2, …`.  Each group is then translated to its global window indices;
each returned split is the `Subset` selecting exactly those indices of the
concatenated dataset, modelled by its index list. -/
def split (df : InfoTable) (cum : List Nat) (some_property : Option String)
    (split_ids : Option (List (List Nat))) : Except String (List (SplitName × List Nat)) :=
  if some_property.isSome && split_ids.isSome then
    .error "AssertionError: can split either based on ids or based on some property"
  else
    match split_ids with
    | none =>
        match _split_ids df some_property with
        | .error m => .error m
        | .ok groups =>
            _windows_dataset_ids_to_supercrop_ids cum
              (groups.map (fun pr => (Sum.inl pr.1, pr.2)))
    | some ls =>
        _windows_dataset_ids_to_supercrop_ids cum
          (ls.enum.map (fun pr => (Sum.inr pr.1, pr.2)))

/-! ### Cumulative-size arithmetic -/

/-- Global flat index at which recording `k` starts: the window count of the
recordings before it.  This is `cumulative_sizes[k-1]` with the convention
`cumulative_sizes[-1] = 0`. -/
def startOf (sizes : List Nat) (k : Nat) : Nat :=
  (sizes.take k).sum

theorem cumsumFrom_length (sizes : List Nat) : ∀ s : Nat, (cumsumFrom s sizes).length = sizes.length := by
  induction sizes with
  | nil => intro s; rfl
  | cons l ls ih => intro s; simpa [cumsumFrom] using ih (s + l)

theorem cumsumFrom_getD (sizes : List Nat) : ∀ s k : Nat, k < sizes.length →
    (cumsumFrom s sizes).getD k 0 = s + (sizes.take (k + 1)).sum := by
  induction sizes with
  | nil => intro s k h; exact absurd h (Nat.not_lt_zero k)
  | cons l ls ih =>
      intro s k h
      cases k with
      | zero => simp [cumsumFrom]
      | succ k =>
          have hk : k < ls.length := Nat.lt_of_succ_lt_succ h
          have := ih (s + l) k hk
          simp only [cumsumFrom, List.getD_eq_getElem?_getD, List.getElem?_cons_succ,
            List.take_succ_cons, List.sum_cons] at this ⊢
          omega

theorem cum_getD {sizes : List Nat} {k : Nat} (h : k < sizes.length) :
    (cumulative_sizes sizes).getD k 0 = startOf sizes (k + 1) := by
  simpa [startOf] using cumsumFrom_getD sizes 0 k h

theorem cumulative_sizes_length (sizes : List Nat) :
    (cumulative_sizes sizes).length = sizes.length :=
  cumsumFrom_length sizes 0

theorem startOf_succ {sizes : List Nat} {k : Nat} (h : k < sizes.length) :
    startOf sizes (k + 1) = startOf sizes k + sizes.getD k 0 := by
  simp only [startOf]
  rw [List.sum_take_succ sizes k h, List.getD_eq_getElem sizes 0 h]

theorem i_starts_getD {sizes : List Nat} {k : Nat} (h : k < sizes.length) :
    (i_starts (cumulative_sizes sizes)).getD k 0 = startOf sizes k := by
  cases k with
  | zero => simp [i_starts, startOf]
  | succ k =>
      have hk : k < sizes.length := Nat.lt_of_succ_lt h
      have hlen : (cumulative_sizes sizes).length = sizes.length := cumulative_sizes_length sizes
      have hdrop : ((cumulative_sizes sizes).dropLast).getD k 0
          = (cumulative_sizes sizes).getD k 0 := by
        simp only [List.getD_eq_getElem?_getD, List.getElem?_dropLast, hlen]
        have : k < sizes.length - 1 := by omega
        simp [this]
      simp only [i_starts, List.getD_eq_getElem?_getD, List.getElem?_cons_succ]
      simp only [← List.getD_eq_getElem?_getD]
      rw [hdrop, cum_getD hk]

theorem pyRange_at {sizes : List Nat} {k : Nat} (h : k < sizes.length) :
    pyRange ((i_starts (cumulative_sizes sizes)).getD k 0) ((cumulative_sizes sizes).getD k 0)
      = List.range' (startOf sizes k) (sizes.getD k 0) := by
  rw [pyRange, i_starts_getD h, cum_getD h, startOf_succ h, Nat.add_sub_cancel_left]

theorem supercropIdsCore_eq {sizes : List Nat} {ws : List Nat}
    (h : ∀ k ∈ ws, k < sizes.length) :
    supercropIdsCore (cumulative_sizes sizes) ws
      = ws.flatMap (fun k => List.range' (startOf sizes k) (sizes.getD k 0)) :=
  List.flatMap_congr (fun k hk => pyRange_at (h k hk))

theorem length_supercropIdsCore {sizes : List Nat} {ws : List Nat}
    (h : ∀ k ∈ ws, k < sizes.length) :
    (supercropIdsCore (cumulative_sizes sizes) ws).length
      = (ws.map (fun k => sizes.getD k 0)).sum := by
  rw [supercropIdsCore_eq h, List.length_flatMap]
  congr 1
  exact List.map_congr_left (fun k _ => by simp [List.length_range'])

theorem mem_supercropIdsCore {sizes : List Nat} {ws : List Nat} {g : Nat}
    (h : ∀ k ∈ ws, k < sizes.length) :
    g ∈ supercropIdsCore (cumulative_sizes sizes) ws
      ↔ ∃ k ∈ ws, startOf sizes k ≤ g ∧ g < startOf sizes k + sizes.getD k 0 := by
  rw [supercropIdsCore_eq h, List.mem_flatMap]
  exact exists_congr (fun k => and_congr_right (fun _ => List.mem_range'_1))

theorem startOf_le_sum (sizes : List Nat) (k : Nat) : startOf sizes k ≤ sizes.sum := by
  conv_rhs => rw [← List.take_append_drop k sizes]
  rw [List.sum_append]
  exact Nat.le_add_right _ _

theorem startOf_mono {sizes : List Nat} {k m : Nat} (h : k ≤ m) :
    startOf sizes k ≤ startOf sizes m := by
  have : sizes.take k = (sizes.take m).take k := by
    rw [List.take_take, Nat.min_eq_left h]
  rw [startOf, this]
  exact startOf_le_sum (sizes.take m) k

theorem resolve_exists (sizes : List Nat) : ∀ g : Nat, g < sizes.sum →
    ∃ k, k < sizes.length ∧ startOf sizes k ≤ g ∧ g < startOf sizes k + sizes.getD k 0 := by
  induction sizes with
  | nil => intro g hg; simp at hg
  | cons s ss ih =>
      intro g hg
      by_cases hs : g < s
      · exact ⟨0, by simp, by simp [startOf], by simpa [startOf] using hs⟩
      · push_neg at hs
        have hg2 : g - s < ss.sum := by simp only [List.sum_cons] at hg; omega
        obtain ⟨k, hk, hlo, hhi⟩ := ih (g - s) hg2
        refine ⟨k + 1, by simpa using Nat.succ_lt_succ hk, ?_, ?_⟩
        · have hle : s + (ss.take k).sum ≤ g := by
            have := Nat.add_le_of_le_sub hs hlo
            simp only [startOf] at this
            omega
          simpa [startOf, List.take_succ_cons] using hle
        · have : startOf (s :: ss) (k + 1) = s + startOf ss k := by
            simp [startOf, List.take_succ_cons]
          rw [this]
          have hgd : (s :: ss).getD (k + 1) 0 = ss.getD k 0 := by
            simp [List.getD_eq_getElem?_getD]
          rw [hgd]
          omega

theorem resolve_unique_aux {sizes : List Nat} {k1 k2 g : Nat} (h2 : k2 < sizes.length)
    (hlt : k1 < k2) (b1 : g < startOf sizes k1 + sizes.getD k1 0)
    (b2 : startOf sizes k2 ≤ g) : False := by
  have hk1 : k1 < sizes.length := Nat.lt_trans hlt h2
  have hstep : startOf sizes (k1 + 1) = startOf sizes k1 + sizes.getD k1 0 := startOf_succ hk1
  have hmono : startOf sizes (k1 + 1) ≤ startOf sizes k2 := startOf_mono hlt
  omega

theorem resolve_unique {sizes : List Nat} {k1 k2 g : Nat}
    (h1 : k1 < sizes.length) (h2 : k2 < sizes.length)
    (b1 : startOf sizes k1 ≤ g ∧ g < startOf sizes k1 + sizes.getD k1 0)
    (b2 : startOf sizes k2 ≤ g ∧ g < startOf sizes k2 + sizes.getD k2 0) : k1 = k2 := by
  rcases Nat.lt_trichotomy k1 k2 with hlt | heq | hgt
  · exact absurd (resolve_unique_aux h2 hlt b1.2 b2.1) not_false
  · exact heq
  · exact absurd (resolve_unique_aux h1 hgt b2.2 b1.1) not_false

/-! ### Group-by lemmas -/

theorem colVals_length (df : InfoTable) (p : String) :
    (colVals df p).length = df.data.length := by
  simp [colVals]

theorem mem_groupIdxs {df : InfoTable} {p v : String} {i : Nat} :
    i ∈ groupIdxs df p v ↔ i < df.data.length ∧ (colVals df p).getD i "" = v := by
  simp [groupIdxs, List.mem_filter, List.mem_range]

theorem groupIdxs_nonempty {df : InfoTable} {p v : String}
    (h : v ∈ (colVals df p).dedup) : groupIdxs df p v ≠ [] := by
  have hv : v ∈ colVals df p := List.mem_dedup.mp h
  rcases List.mem_iff_getElem.mp hv with ⟨n, hn, he⟩
  have hn2 : n < df.data.length := by rwa [colVals_length] at hn
  have : n ∈ groupIdxs df p v :=
    mem_groupIdxs.mpr ⟨hn2, by rw [List.getD_eq_getElem _ _ hn, he]⟩
  exact List.ne_nil_of_mem this

/-! ### Success and failure of the group translation loop -/

theorem windows_ids_ok (cum : List Nat) : ∀ l : List (SplitName × List Nat),
    (∀ pr ∈ l, pr.2 ≠ []) →
    _windows_dataset_ids_to_supercrop_ids cum l
      = .ok (l.map (fun pr => (pr.1, supercropIdsCore cum pr.2))) := by
  intro l
  induction l with
  | nil => intro _; rfl
  | cons pr rest ih =>
      intro h
      have hpr : pr.2 ≠ [] := h pr (List.mem_cons_self pr rest)
      have hrest := ih (fun q hq => h q (List.mem_cons_of_mem pr hq))
      simp only [_windows_dataset_ids_to_supercrop_ids, _supercrop_ids_of_windows,
        List.isEmpty_iff, if_neg hpr, hrest, List.map_cons]

theorem windows_ids_err (cum : List Nat) : ∀ l : List (SplitName × List Nat),
    (∃ pr ∈ l, pr.2 = []) →
    ∃ m, _windows_dataset_ids_to_supercrop_ids cum l = .error m := by
  intro l
  induction l with
  | nil => rintro ⟨pr, hmem, _⟩; exact absurd hmem (List.not_mem_nil pr)
  | cons pr rest ih =>
      rintro ⟨q, hq, hqe⟩
      by_cases hpr : pr.2 = []
      · refine ⟨"ValueError: need at least one array to concatenate", ?_⟩
        simp [_windows_dataset_ids_to_supercrop_ids, _supercrop_ids_of_windows,
          List.isEmpty_iff, hpr]
      · have hqr : q ∈ rest := by
          rcases List.mem_cons.mp hq with h | h
          · exact absurd (h ▸ hqe) hpr
          · exact h
        obtain ⟨m, hm⟩ := ih ⟨q, hqr, hqe⟩
        refine ⟨m, ?_⟩
        simp [_windows_dataset_ids_to_supercrop_ids, _supercrop_ids_of_windows,
          List.isEmpty_iff, hpr, hm]

theorem split_by_property_eq (df : InfoTable) (sizes : List Nat) (p : String)
    (hp : p ∈ df.columns) :
    split df (cumulative_sizes sizes) (some p) none
      = .ok ((colVals df p).dedup.map (fun v =>
          ((Sum.inl v : SplitName),
            supercropIdsCore (cumulative_sizes sizes) (groupIdxs df p v)))) := by
  have hsplit_ids : _split_ids df (some p)
      = .ok ((colVals df p).dedup.map (fun v => (v, groupIdxs df p v))) := by
    simp [_split_ids, hp]
  have hne : ∀ pr ∈ (colVals df p).dedup.map
      (fun v => ((Sum.inl v : SplitName), groupIdxs df p v)), pr.2 ≠ [] := by
    intro pr hpr
    rcases List.mem_map.mp hpr with ⟨v, hv, rfl⟩
    exact groupIdxs_nonempty hv
  have hok := windows_ids_ok (cumulative_sizes sizes) _ hne
  show ((match _split_ids df (some p) with
    | .error m => .error m
    | .ok groups =>
        _windows_dataset_ids_to_supercrop_ids (cumulative_sizes sizes)
          (groups.map (fun pr => (Sum.inl pr.1, pr.2)))) :
      Except String (List (SplitName × List Nat))) = _
  rw [hsplit_ids]
  have hfinal : _windows_dataset_ids_to_supercrop_ids (cumulative_sizes sizes)
      ((((colVals df p).dedup.map (fun v => (v, groupIdxs df p v))).map
        (fun pr => ((Sum.inl pr.1 : SplitName), pr.2))))
      = Except.ok ((colVals df p).dedup.map (fun v =>
          ((Sum.inl v : SplitName),
            supercropIdsCore (cumulative_sizes sizes) (groupIdxs df p v)))) := by
    rw [List.map_map]
    exact hok.trans (by rw [List.map_map]; rfl)
  exact hfinal

/-- Claim C3: for every concatenated dataset and every metadata column, the
split by that column returns one global window-index set per distinct
column value, and together these sets cover `[0, total)` exactly and are
pairwise disjoint. -/
theorem claim_C3_split_by_property_partitions (df : InfoTable) (sizes : List Nat) (p : String)
    (hp : p ∈ df.columns) (hlen : df.data.length = sizes.length) :
    ∃ result, split df (cumulative_sizes sizes) (some p) none = .ok result ∧
      (∀ g : Nat, (∃ pr ∈ result, g ∈ pr.2) ↔ g < sizes.sum) ∧
      (∀ (j1 j2 : Nat) (pr1 pr2 : SplitName × List Nat), j1 ≠ j2 →
        result[j1]? = some pr1 → result[j2]? = some pr2 →
        ∀ g : Nat, g ∈ pr1.2 → g ∉ pr2.2) := by
  have hbound : ∀ v : String, ∀ k ∈ groupIdxs df p v, k < sizes.length := by
    intro v k hk
    exact hlen ▸ (mem_groupIdxs.mp hk).1
  have hvals_len : (colVals df p).length = sizes.length := by
    rw [colVals_length, hlen]
  refine ⟨_, split_by_property_eq df sizes p hp, ?_, ?_⟩
  · intro g
    constructor
    · rintro ⟨pr, hpr, hg⟩
      rcases List.mem_map.mp hpr with ⟨v, _, rfl⟩
      rcases (mem_supercropIdsCore (hbound v)).mp hg with ⟨k, hkmem, hlo, hhi⟩
      have hk : k < sizes.length := hbound v k hkmem
      have h1 := startOf_succ hk
      have h2 := startOf_le_sum sizes (k + 1)
      omega
    · intro hg
      obtain ⟨k, hk, hlo, hhi⟩ := resolve_exists sizes g hg
      have hkv : k < (colVals df p).length := hvals_len ▸ hk
      refine ⟨((Sum.inl ((colVals df p).getD k "") : SplitName),
        supercropIdsCore (cumulative_sizes sizes)
          (groupIdxs df p ((colVals df p).getD k ""))), ?_, ?_⟩
      · refine List.mem_map.mpr ⟨(colVals df p).getD k "", ?_, rfl⟩
        refine List.mem_dedup.mpr ?_
        rw [List.getD_eq_getElem _ _ hkv]
        exact List.getElem_mem hkv
      · refine (mem_supercropIdsCore (hbound _)).mpr ⟨k, ?_, hlo, hhi⟩
        exact mem_groupIdxs.mpr ⟨hlen ▸ hk, rfl⟩
  · intro j1 j2 pr1 pr2 hne h1 h2 g hg1 hg2
    rw [List.getElem?_map] at h1 h2
    rcases Option.map_eq_some'.mp h1 with ⟨v1, hv1, he1⟩
    rcases Option.map_eq_some'.mp h2 with ⟨v2, hv2, he2⟩
    rw [← he1] at hg1
    rw [← he2] at hg2
    rcases (mem_supercropIdsCore (hbound v1)).mp hg1 with ⟨k1, hk1mem, b1⟩
    rcases (mem_supercropIdsCore (hbound v2)).mp hg2 with ⟨k2, hk2mem, b2⟩
    have hk1 := hbound v1 k1 hk1mem
    have hk2 := hbound v2 k2 hk2mem
    have hkeq : k1 = k2 := resolve_unique hk1 hk2 b1 b2
    have hveq : v1 = v2 := by
      have e1 := (mem_groupIdxs.mp hk1mem).2
      have e2 := (mem_groupIdxs.mp hk2mem).2
      rw [← e1, ← e2, hkeq]
    rcases List.getElem?_eq_some.mp hv1 with ⟨hj1, hje1⟩
    rcases List.getElem?_eq_some.mp hv2 with ⟨hj2, hje2⟩
    have : j1 = j2 := by
      refine (@List.Nodup.getElem_inj_iff String (colVals df p).dedup
        (List.nodup_dedup (colVals df p)) j1 hj1 j2 hj2).mp ?_
      rw [hje1, hje2, hveq]
    exact hne this

/-- Witness for C3 at a concrete table: three recordings with `session`
values `train, train, eval` and window counts `2, 2, 3`. -/
theorem claim_C3_witness :
    ∃ result,
      split (InfoTable.mk ["session"]
          [fun _ => "train", fun _ => "train", fun _ => "eval"])
          (cumulative_sizes [2, 2, 3]) (some "session") none = .ok result ∧
      (∀ g : Nat, (∃ pr ∈ result, g ∈ pr.2) ↔ g < ([2, 2, 3] : List Nat).sum) ∧
      (∀ (j1 j2 : Nat) (pr1 pr2 : SplitName × List Nat), j1 ≠ j2 →
        result[j1]? = some pr1 → result[j2]? = some pr2 →
        ∀ g : Nat, g ∈ pr1.2 → g ∉ pr2.2) :=
  claim_C3_split_by_property_partitions
    (InfoTable.mk ["session"] [fun _ => "train", fun _ => "train", fun _ => "eval"])
    [2, 2, 3] "session" (by simp) (by rfl)

/-- Claim C5: a `split` call with both mode arguments given fails with the
explicit assertion; with neither given it fails inside `_split_ids` (the
`None in df` membership test is false); and with a grouping column absent
from the metadata table it fails the same `_split_ids` assertion.  None of
these calls proceeds to produce splits. -/
theorem claim_C5_split_config_errors (df : InfoTable) (cum : List Nat) (p : String)
    (ids : List (List Nat)) :
    split df cum (some p) (some ids)
        = .error "AssertionError: can split either based on ids or based on some property" ∧
    split df cum none none = .error "AssertionError: some_property in df" ∧
    (p ∉ df.columns →
      split df cum (some p) none = .error "AssertionError: some_property in df") := by
  refine ⟨rfl, rfl, fun hp => ?_⟩
  have hsi : _split_ids df (some p) = .error "AssertionError: some_property in df" := by
    simp only [_split_ids, if_neg hp]
  exact (by rw [hsi] : ((match _split_ids df (some p) with
    | .error m => .error m
    | .ok groups => _windows_dataset_ids_to_supercrop_ids cum
        (groups.map (fun pr => (Sum.inl pr.1, pr.2)))) :
      Except String (List (SplitName × List Nat)))
    = .error "AssertionError: some_property in df")

/-- Witness for C5: the absent-column failure at a concrete empty table. -/
theorem claim_C5_witness :
    split (InfoTable.mk [] []) [] (some "subject") none
      = .error "AssertionError: some_property in df" :=
  (claim_C5_split_config_errors (InfoTable.mk [] []) [] "subject" []).2.2 (by simp)

theorem split_by_ids_eq (df : InfoTable) (cum : List Nat) (groups : List (List Nat))
    (hne : ∀ gp ∈ groups, gp ≠ []) :
    split df cum none (some groups)
      = .ok (groups.enum.map (fun pr =>
          ((Sum.inr pr.1 : SplitName), supercropIdsCore cum pr.2))) := by
  have hne2 : ∀ pr ∈ groups.enum.map (fun pr => ((Sum.inr pr.1 : SplitName), pr.2)),
      pr.2 ≠ [] := by
    intro pr hpr
    rcases List.mem_map.mp hpr with ⟨q, hq, rfl⟩
    have := List.mem_enum hq
    exact this.2 ▸ hne _ (List.getElem_mem this.1)
  have hok := windows_ids_ok cum _ hne2
  exact hok.trans (by rw [List.map_map]; rfl)

/-- Claim C6: splitting by explicit recording-index lists names the splits
positionally `0, 1, 2, …`; each split's global index sequence is the
concatenation, in the order the recordings were listed, of the ranges
`[cumulative_sizes[k-1], cumulative_sizes[k])` of the listed recording
indices `k` (with the `cumulative_sizes[-1] = 0` convention), so its size
is the sum of the listed recordings' window counts. -/
theorem claim_C6_split_by_explicit_ids (df : InfoTable) (sizes : List Nat)
    (groups : List (List Nat))
    (hne : ∀ gp ∈ groups, gp ≠ [])
    (hlt : ∀ gp ∈ groups, ∀ k ∈ gp, k < sizes.length) :
    ∃ result, split df (cumulative_sizes sizes) none (some groups) = .ok result ∧
      result.length = groups.length ∧
      ∀ (j : Nat) (gp : List Nat), groups[j]? = some gp →
        result[j]? = some ((Sum.inr j : SplitName),
          gp.flatMap (fun k => List.range' (startOf sizes k) (sizes.getD k 0))) ∧
        (gp.flatMap (fun k => List.range' (startOf sizes k) (sizes.getD k 0))).length
          = (gp.map (fun k => sizes.getD k 0)).sum := by
  refine ⟨_, split_by_ids_eq df (cumulative_sizes sizes) groups hne, ?_, ?_⟩
  · rw [List.length_map, List.enum_length]
  · intro j gp hj
    have hmem : gp ∈ groups := by
      rcases List.getElem?_eq_some.mp hj with ⟨hjl, hje⟩
      exact hje ▸ List.getElem_mem hjl
    have hbound := hlt gp hmem
    constructor
    · rw [List.getElem?_map, List.getElem?_enum, hj]
      simp only [Option.map_some']
      rw [supercropIdsCore_eq hbound]
    · rw [← supercropIdsCore_eq hbound]
      rw [length_supercropIdsCore hbound]

/-- Witness for C6: two recordings of sizes 5 and 3, explicit groups
`[[1], [0, 1]]`. -/
theorem claim_C6_witness :
    ∃ result,
      split (InfoTable.mk [] []) (cumulative_sizes [5, 3]) none (some [[1], [0, 1]])
        = .ok result ∧
      result.length = 2 ∧
      ∀ (j : Nat) (gp : List Nat), ([[1], [0, 1]] : List (List Nat))[j]? = some gp →
        result[j]? = some ((Sum.inr j : SplitName),
          gp.flatMap (fun k => List.range' (startOf [5, 3] k) (([5, 3] : List Nat).getD k 0))) ∧
        (gp.flatMap (fun k => List.range' (startOf [5, 3] k)
            (([5, 3] : List Nat).getD k 0))).length
          = (gp.map (fun k => ([5, 3] : List Nat).getD k 0)).sum :=
  claim_C6_split_by_explicit_ids (InfoTable.mk [] []) [5, 3] [[1], [0, 1]]
    (by decide) (by decide)

/-- Counterexample to claim C4: translating a group with zero recording
indices raises the `np.concatenate` error, it does not return an empty
view. -/
theorem claim_C4_counterexample :
    split (InfoTable.mk [] []) (cumulative_sizes [5, 3]) none (some [[]])
      = .error "ValueError: need at least one array to concatenate" := rfl

/-- Claim C4 as amended: splitting with a group that contains zero recording
indices fails with the concatenation error (the code hands `np.concatenate`
an empty list of ranges); no empty view is produced. -/
theorem claim_C4_amended_empty_group_errors (df : InfoTable) (cum : List Nat)
    (groups : List (List Nat)) (h : [] ∈ groups) :
    ∃ m, split df cum none (some groups) = .error m := by
  have hex : ∃ pr ∈ groups.enum.map (fun pr => ((Sum.inr pr.1 : SplitName), pr.2)),
      pr.2 = [] := by
    rcases List.mem_iff_getElem.mp h with ⟨j, hj, he⟩
    have h1 : groups.enum[j]? = some (j, ([] : List Nat)) := by
      rw [List.getElem?_enum, List.getElem?_eq_getElem hj, he]
      rfl
    rcases List.getElem?_eq_some.mp h1 with ⟨hj2, he2⟩
    exact ⟨((Sum.inr j : SplitName), []),
      List.mem_map.mpr ⟨(j, []), he2 ▸ List.getElem_mem hj2, rfl⟩, rfl⟩
  obtain ⟨m, hm⟩ := windows_ids_err cum _ hex
  exact ⟨m, hm⟩

/-- Witness for the amended C4 at a concrete input. -/
theorem claim_C4_witness :
    ∃ m, split (InfoTable.mk [] []) (cumulative_sizes [5, 3]) none (some [[0], []])
      = .error m :=
  claim_C4_amended_empty_group_errors (InfoTable.mk [] []) (cumulative_sizes [5, 3])
    [[0], []] (by decide)

/-! ### Loader lemmas -/

theorem loaderStep_snd (slot : Option Prov) (b : RawBatch) :
    (loaderStep slot b).2 = coerceXY b.x b.y := by
  cases b <;> rfl

theorem throwAwayIter_getElem? (stream : List RawBatch) :
    ∀ (slot : Option Prov) (k : Nat),
      ((throwAwayIter slot stream).2)[k]? = (stream[k]?).map (fun b => coerceXY b.x b.y) := by
  induction stream with
  | nil => intro slot k; simp [throwAwayIter]
  | cons b bs ih =>
      intro slot k
      cases k with
      | zero => simp [throwAwayIter, loaderStep_snd]
      | succ k => simp [throwAwayIter, ih]

/-- Claim C1: with `drop_index=True` every emitted batch is a two-element
`(input, target)` tuple — a third element is never emitted; with
`drop_index=False` the raw iterator's batches pass through unchanged, so
whenever the raw iterator produced an `(x, y, i)` triple for batch `k`, the
emitted batch `k` has three elements and its third element is exactly that
provenance `i`. -/
theorem claim_C1_loader_drop_provenance (slot : Option Prov) (stream : List RawBatch) :
    (∀ t ∈ get_iterator slot stream true, t.length = 2) ∧
    (∀ (k : Nat) (x y : Arr) (i : Prov), stream[k]? = some (.triple x y i) →
      (get_iterator slot stream false)[k]?
        = some [Elem.arr x, Elem.arr y, Elem.prov i]) := by
  constructor
  · intro t ht
    have : t ∈ (throwAwayIter slot stream).2.map pairToTuple := ht
    rcases List.mem_map.mp this with ⟨xy, _, rfl⟩
    rfl
  · intro k x y i hk
    show (stream.map RawBatch.toTuple)[k]? = _
    rw [List.getElem?_map, hk]
    rfl

/-! ### Concrete batch values used by the scenario witnesses -/

def x0 : Arr := { hasType := false, dtype := Dtype.other, vals := [10] }

def y0 : Arr := { hasType := false, dtype := Dtype.other, vals := [0] }

def p0 : Prov := { iwin := [0], istart := [0], istop := [125] }

def x1 : Arr := { hasType := false, dtype := Dtype.other, vals := [11] }

def y1 : Arr := { hasType := false, dtype := Dtype.other, vals := [1] }

/-- Witness for C1 at the concrete one-triple stream. -/
theorem claim_C1_witness :
    (get_iterator none [RawBatch.triple x0 y0 p0] false)[0]?
      = some [Elem.arr x0, Elem.arr y0, Elem.prov p0] :=
  (claim_C1_loader_drop_provenance none [RawBatch.triple x0 y0 p0]).2 0 x0 y0 p0 rfl

/-! ### Post-batch hook lemmas -/

theorem filter_default_callbacks : default_callbacks.filter isEpochCb = [] := rfl

theorem epoch_cbs_pos {st : NetState} (hex : ∃ cb ∈ st.callbacks, isEpochCb cb = true) :
    ((default_callbacks ++ st.callbacks).filter isEpochCb).length > 0 := by
  rcases hex with ⟨cb, hmem, hcb⟩
  have : cb ∈ (default_callbacks ++ st.callbacks).filter isEpochCb :=
    List.mem_filter.mpr ⟨List.mem_append_right _ hmem, hcb⟩
  exact List.length_pos.mpr (List.ne_nil_of_mem this)

theorem on_batch_end_eval (st : NetState)
    (hfil : ((default_callbacks ++ st.callbacks).filter isEpochCb).length > 0) :
    on_batch_end st false
      = match st.last_supercrop_inds with
        | none => .error "AssertionError: hasattr(self, _last_supercrop_inds)"
        | some i => .ok { callbacks := st.callbacks.map (appendInds i),
                          last_supercrop_inds := none } := by
  unfold on_batch_end
  simp only [if_neg Bool.false_ne_true]
  rw [if_pos hfil]

/-- The concrete provenance-consuming evaluation callback of the C2
scenario. -/
def cb0 : Callback :=
  { className := "CroppedTrialEpochScoring", has_supercrop_inds := true,
    on_train := false, supercrop_inds := [] }

/-- The scenario trainer state: one registered provenance-consuming
evaluation callback, empty mailbox. -/
def st0 : NetState := { callbacks := [cb0], last_supercrop_inds := none }

/-- Claim C2: in evaluation mode with at least one registered
provenance-consuming evaluation callback, the post-batch hook fails the
assertion-style consistency check when the pending-provenance slot is
empty; when the slot holds `p`, the hook appends `p` to every such
callback's running log (leaving the other callbacks unchanged) and clears
the slot.  In particular, on the batch stream `[(x0, y0, p0), (x1, y1)]`
batch 0's hook leaves the callback log `[p0]` and the empty slot, and the
full run raises the consistency error at batch 1's hook. -/
theorem claim_C2_pending_provenance_protocol :
    (∀ st : NetState, (∃ cb ∈ st.callbacks, isEpochCb cb = true) →
      (st.last_supercrop_inds = none →
        on_batch_end st false
          = .error "AssertionError: hasattr(self, _last_supercrop_inds)") ∧
      (∀ p : Prov, st.last_supercrop_inds = some p →
        ∃ st2, on_batch_end st false = .ok st2 ∧
          st2.last_supercrop_inds = none ∧
          st2.callbacks.length = st.callbacks.length ∧
          ∀ (k : Nat) (cb : Callback), st.callbacks[k]? = some cb →
            st2.callbacks[k]? = some (if isEpochCb cb
              then { cb with supercrop_inds := cb.supercrop_inds ++ [p] }
              else cb))) ∧
    stepEval st0 (RawBatch.triple x0 y0 p0)
      = .ok ({ callbacks := [{ cb0 with supercrop_inds := [p0] }],
               last_supercrop_inds := none }, (x0, y0)) ∧
    runEval st0 [RawBatch.triple x0 y0 p0, RawBatch.pair x1 y1]
      = .error "AssertionError: hasattr(self, _last_supercrop_inds)" := by
  refine ⟨?_, rfl, rfl⟩
  intro st hex
  have hfil := epoch_cbs_pos hex
  constructor
  · intro hnone
    rw [on_batch_end_eval st hfil, hnone]
  · intro p hp
    rw [on_batch_end_eval st hfil, hp]
    refine ⟨_, rfl, rfl, by rw [List.length_map], ?_⟩
    intro k cb hk
    rw [List.getElem?_map, hk]
    rfl

/-- Witness for the general part of C2 at the concrete scenario state. -/
theorem claim_C2_witness :
    on_batch_end st0 false
      = .error "AssertionError: hasattr(self, _last_supercrop_inds)" :=
  (claim_C2_pending_provenance_protocol.1 st0
    ⟨cb0, List.mem_cons_self cb0 [], rfl⟩).1 rfl

/-! ### Claim C7: the dtype-coercion direction -/

/-- The coercion behaviour claimed by the spec, stated for comparison with
the code: an emitted batch whose raw input lacks array/tensor semantics
(no `.type` cast method, `hasType = false`) is coerced — input to the fixed
floating-point dtype, target to the fixed integer dtype — while a batch
whose raw input has them is passed through unchanged. -/
def coercionPerSpec (stream : List RawBatch) : Prop :=
  ∀ (k : Nat) (b : RawBatch), stream[k]? = some b →
    ∀ xy : Arr × Arr, ((throwAwayIter none stream).2)[k]? = some xy →
      (b.x.hasType = false →
        xy.1.dtype = Dtype.float32 ∧ xy.2.dtype = Dtype.int64) ∧
      (b.x.hasType = true → xy = (b.x, b.y))

/-- Counterexample to claim C7: a batch whose elements lack the `.type`
method passes through uncoerced (the code coerces exactly in the opposite
case). -/
theorem claim_C7_counterexample :
    ¬ coercionPerSpec
      [RawBatch.pair { hasType := false, dtype := Dtype.int64, vals := [0] }
                     { hasType := false, dtype := Dtype.int64, vals := [0] }] := by
  intro h
  have h2 := (h 0 _ rfl
    ({ hasType := false, dtype := Dtype.int64, vals := [0] },
     { hasType := false, dtype := Dtype.int64, vals := [0] }) rfl).1 rfl
  exact absurd h2.1 (by decide)

/-- Claim C7 as amended: the loader coerces exactly the batches whose input
has the `.type` cast method (tensor semantics) — input to float32, target
to int64 — and passes batches whose input lacks it through unchanged. -/
theorem claim_C7_amended_coercion (slot : Option Prov) (stream : List RawBatch)
    (k : Nat) (b : RawBatch) (hk : stream[k]? = some b) :
    (b.x.hasType = true →
      ((throwAwayIter slot stream).2)[k]?
        = some (b.x.typeCast Dtype.float32, b.y.typeCast Dtype.int64)) ∧
    (b.x.hasType = false →
      ((throwAwayIter slot stream).2)[k]? = some (b.x, b.y)) := by
  rw [throwAwayIter_getElem? stream slot k, hk]
  constructor
  · intro ht
    simp [coerceXY, ht]
  · intro ht
    simp [coerceXY, ht]

/-- Witness for the amended C7: a tensor-like float64 batch is coerced. -/
theorem claim_C7_witness :
    ((throwAwayIter none
        [RawBatch.pair { hasType := true, dtype := Dtype.float64, vals := [3] }
                       { hasType := true, dtype := Dtype.float64, vals := [1] }]).2)[0]?
      = some ({ hasType := true, dtype := Dtype.float32, vals := [3] },
              { hasType := true, dtype := Dtype.int64, vals := [1] }) :=
  (claim_C7_amended_coercion none
    [RawBatch.pair { hasType := true, dtype := Dtype.float64, vals := [3] }
                   { hasType := true, dtype := Dtype.float64, vals := [1] }]
    0 _ rfl).1 rfl

/-! ### Claim C8: index handling of `WindowsDataset.__getitem__` -/

/-- A concrete three-window dataset. -/
def ds3 : WindowsDataset :=
  { windows :=
      [ { data := [100], target := 5, i_supercrop_in_trial := 0,
          i_start_in_trial := 0, i_stop_in_trial := 100 },
        { data := [101], target := 6, i_supercrop_in_trial := 1,
          i_start_in_trial := 100, i_stop_in_trial := 200 },
        { data := [102], target := 7, i_supercrop_in_trial := 2,
          i_start_in_trial := 200, i_stop_in_trial := 300 } ] }

/-- Counterexample to claim C8: `get(-1)` — an index outside `[0, len)` —
does not fail; Python negative indexing (pandas `.iloc`, numpy, mne all
follow it) returns the last window. -/
theorem claim_C8_counterexample :
    ds3.getitem (-1) = .ok ([102], 7, [2, 200, 300]) ∧ ¬ (0 ≤ (-1 : Int)) :=
  ⟨rfl, by decide⟩

/-- Claim C8 as amended: `get(j)` fails with an `IndexError` exactly for
`j < -len` and `j >= len`; `0 <= j < len` returns window `j`, and a
negative `-len <= j < 0` wraps around (Python semantics) and returns window
`len + j` — indices are never clamped, but negative indices in range do
return windows from the end. -/
theorem claim_C8_amended_python_indexing (ds : WindowsDataset) (j : Int) :
    (0 ≤ j ∧ j < (ds.length : Int) →
      ∃ r, ds.getitem j = .ok r ∧ ds.extract j.toNat = some r) ∧
    (-(ds.length : Int) ≤ j ∧ j < 0 →
      ∃ r, ds.getitem j = .ok r ∧ ds.extract ((ds.length : Int) + j).toNat = some r) ∧
    (j < -(ds.length : Int) ∨ (ds.length : Int) ≤ j →
      ds.getitem j = .error "IndexError") := by
  have hlen : ds.length = ds.windows.length := rfl
  refine ⟨?_, ?_, ?_⟩
  · rintro ⟨h0, h1⟩
    have hlt : j.toNat < ds.windows.length := by
      rw [hlen] at h1
      omega
    have hw : ds.windows[j.toNat]? = some (ds.windows[j.toNat]) :=
      List.getElem?_eq_getElem hlt
    have hextract : ds.extract j.toNat
        = some ((ds.windows[j.toNat]).data, (ds.windows[j.toNat]).target,
            [(ds.windows[j.toNat]).i_supercrop_in_trial,
             (ds.windows[j.toNat]).i_start_in_trial,
             (ds.windows[j.toNat]).i_stop_in_trial]) := by
      rw [WindowsDataset.extract, hw]
      rfl
    refine ⟨_, ?_, hextract⟩
    show (if 0 ≤ j ∧ j < ((ds.windows.length : Nat) : Int) then _ else _) = _
    rw [if_pos ⟨h0, by rw [hlen] at h1; exact h1⟩, hextract]
  · rintro ⟨h0, h1⟩
    have hlt : ((ds.length : Int) + j).toNat < ds.windows.length := by
      rw [hlen] at h0 ⊢
      omega
    have hw : ds.windows[((ds.length : Int) + j).toNat]?
        = some (ds.windows[((ds.length : Int) + j).toNat]) :=
      List.getElem?_eq_getElem hlt
    have hextract : ds.extract ((ds.length : Int) + j).toNat
        = some ((ds.windows[((ds.length : Int) + j).toNat]).data,
            (ds.windows[((ds.length : Int) + j).toNat]).target,
            [(ds.windows[((ds.length : Int) + j).toNat]).i_supercrop_in_trial,
             (ds.windows[((ds.length : Int) + j).toNat]).i_start_in_trial,
             (ds.windows[((ds.length : Int) + j).toNat]).i_stop_in_trial]) := by
      rw [WindowsDataset.extract, hw]
      rfl
    refine ⟨_, ?_, hextract⟩
    have hn1 : ¬ (0 ≤ j ∧ j < ((ds.windows.length : Nat) : Int)) := by
      intro hc
      omega
    have hp2 : -((ds.windows.length : Nat) : Int) ≤ j ∧ j < 0 := by
      rw [hlen] at h0
      exact ⟨h0, h1⟩
    show (if 0 ≤ j ∧ j < ((ds.windows.length : Nat) : Int) then _ else _) = _
    rw [if_neg hn1, if_pos hp2]
    show (match ds.extract ((ds.length : Int) + j).toNat with
      | some r => Except.ok r
      | none => Except.error "IndexError") = _
    rw [hextract]
  · intro hout
    have hn1 : ¬ (0 ≤ j ∧ j < ((ds.windows.length : Nat) : Int)) := by
      rw [hlen] at hout
      intro hc
      omega
    have hn2 : ¬ (-((ds.windows.length : Nat) : Int) ≤ j ∧ j < 0) := by
      rw [hlen] at hout
      intro hc
      omega
    show (if 0 ≤ j ∧ j < ((ds.windows.length : Nat) : Int) then _ else _) = _
    rw [if_neg hn1, if_neg hn2]

/-- Witness for the amended C8: `get(-2)` on the three-window dataset wraps
to window 1, `get(3)` and `get(-4)` raise. -/
theorem claim_C8_witness :
    (∃ r, ds3.getitem (-2) = .ok r ∧ ds3.extract ((ds3.length : Int) + -2).toNat = some r) ∧
    ds3.getitem 3 = .error "IndexError" ∧
    ds3.getitem (-4) = .error "IndexError" :=
  ⟨(claim_C8_amended_python_indexing ds3 (-2)).2.1 (by decide),
   (claim_C8_amended_python_indexing ds3 3).2.2 (by decide),
   (claim_C8_amended_python_indexing ds3 (-4)).2.2 (by decide)⟩

/-! ### Flatten-indexing lemmas for the predictor -/

theorem flatten_getElem? {α : Type} (L : List (List α)) : ∀ (b off : Nat) (l : List α),
    L[b]? = some l → off < l.length →
    L.flatten[((L.take b).map List.length).sum + off]? = l[off]? := by
  induction L with
  | nil => intro b off l h _; simp at h
  | cons hd tl ih =>
      intro b off l h hoff
      cases b with
      | zero =>
          rw [List.getElem?_cons_zero] at h
          have hdl : hd = l := Option.some.inj h
          subst hdl
          simp only [List.take_zero, List.map_nil, List.sum_nil, Nat.zero_add,
            List.flatten_cons]
          rw [List.getElem?_append, if_pos hoff]
      | succ b =>
          rw [List.getElem?_cons_succ] at h
          simp only [List.take_succ_cons, List.map_cons, List.sum_cons,
            List.flatten_cons, Nat.add_assoc]
          rw [List.getElem?_append_right (Nat.le_add_right _ _),
            Nat.add_sub_cancel_left]
          exact ih b off l h hoff

theorem take_map_length_sum {α β : Type} (stream : List β) (f : β → List α) (sz : β → Nat)
    (h : ∀ b ∈ stream, (f b).length = sz b) (bi : Nat) :
    (((stream.map f).take bi).map List.length).sum = ((stream.take bi).map sz).sum := by
  rw [← List.map_take, List.map_map]
  congr 1
  exact List.map_congr_left (fun b hb => h b (List.take_subset _ _ hb))

theorem flatten_map_length {α β : Type} (stream : List β) (f : β → List α) (sz : β → Nat)
    (h : ∀ b ∈ stream, (f b).length = sz b) :
    (stream.map f).flatten.length = (stream.map sz).sum := by
  rw [List.length_flatten, List.map_map]
  congr 1
  exact List.map_congr_left (fun b hb => h b hb)

theorem flatten_map_getElem? {α β : Type} (stream : List β) (f : β → List α) (sz : β → Nat)
    (h : ∀ b ∈ stream, (f b).length = sz b) (bi off : Nat) (b : β)
    (hb : stream[bi]? = some b) (hoff : off < sz b) :
    (stream.map f).flatten[((stream.take bi).map sz).sum + off]? = (f b)[off]? := by
  have hmem : b ∈ stream := by
    rcases List.getElem?_eq_some.mp hb with ⟨hlt, he⟩
    exact he ▸ List.getElem_mem hlt
  have h1 : (stream.map f)[bi]? = some (f b) := by
    rw [List.getElem?_map, hb]
    rfl
  have h2 : off < (f b).length := by
    rw [h b hmem]
    exact hoff
  have h3 := flatten_getElem? (stream.map f) bi off (f b) h1 h2
  rw [← h3, take_map_length_sum stream f sz h bi]

/-- Claim C9: for a full non-shuffled pass of the predictor, the four output
arrays have one common length, that length is the dataset's total window
count (the sum of the batch sizes of the full pass), and the element at
any global position — batch `bi`, row `off` — of each of the four arrays
comes from that same batch and row: the `i`-th elements of the four arrays
describe the same window. -/
theorem claim_C9_predictor_alignment (predict_proba : Arr → List (List Int))
    (stream : List (Arr × Arr × Prov)) (total : Nat)
    (hne : stream ≠ [])
    (hp : ∀ b ∈ stream, (predict_proba b.1).length = batchSize b)
    (hy : ∀ b ∈ stream, b.2.1.vals.length = batchSize b)
    (hwin : ∀ b ∈ stream, b.2.2.iwin.length = batchSize b)
    (hstop : ∀ b ∈ stream, b.2.2.istop.length = batchSize b)
    (htot : (stream.map batchSize).sum = total) :
    ∃ out, predict_with_supercrop_inds_and_ys predict_proba stream = .ok out ∧
      out.preds.length = total ∧
      out.i_supercrop_in_trials.length = total ∧
      out.i_supercrop_stops.length = total ∧
      out.supercrop_ys.length = total ∧
      ∀ (bi off : Nat) (b : Arr × Arr × Prov), stream[bi]? = some b → off < batchSize b →
        out.preds[((stream.take bi).map batchSize).sum + off]?
            = (predict_proba b.1)[off]? ∧
        out.i_supercrop_in_trials[((stream.take bi).map batchSize).sum + off]?
            = b.2.2.iwin[off]? ∧
        out.i_supercrop_stops[((stream.take bi).map batchSize).sum + off]?
            = b.2.2.istop[off]? ∧
        out.supercrop_ys[((stream.take bi).map batchSize).sum + off]?
            = b.2.1.vals[off]? := by
  have hempty : ¬ (stream.isEmpty = true) := by
    rw [List.isEmpty_iff]
    exact hne
  refine ⟨{ preds := (stream.map (fun b => predict_proba b.1)).flatten,
            i_supercrop_in_trials := (stream.map (fun b => b.2.2.iwin)).flatten,
            i_supercrop_stops := (stream.map (fun b => b.2.2.istop)).flatten,
            supercrop_ys := (stream.map (fun b => b.2.1.vals)).flatten },
    ?_, ?_, ?_, ?_, ?_, ?_⟩
  · show (if stream.isEmpty then _ else _) = _
    rw [if_neg hempty]
  · exact (flatten_map_length stream _ batchSize hp).trans htot
  · exact (flatten_map_length stream _ batchSize hwin).trans htot
  · exact (flatten_map_length stream _ batchSize hstop).trans htot
  · exact (flatten_map_length stream _ batchSize hy).trans htot
  · intro bi off b hb hoff
    exact ⟨flatten_map_getElem? stream _ batchSize hp bi off b hb hoff,
      flatten_map_getElem? stream _ batchSize hwin bi off b hb hoff,
      flatten_map_getElem? stream _ batchSize hstop bi off b hb hoff,
      flatten_map_getElem? stream _ batchSize hy bi off b hb hoff⟩

/-- A concrete per-row prediction function for the predictor witnesses. -/
def pf9 : Arr → List (List Int) := fun a => a.vals.map (fun v => [v])

/-- A concrete one-batch full pass with two windows. -/
def stream9 : List (Arr × Arr × Prov) :=
  [({ hasType := false, dtype := Dtype.other, vals := [1, 2] },
    { hasType := false, dtype := Dtype.other, vals := [0, 1] },
    { iwin := [0, 1], istart := [0, 100], istop := [100, 200] })]

/-- Witness for C9 at the concrete one-batch pass. -/
theorem claim_C9_witness :
    ∃ out, predict_with_supercrop_inds_and_ys pf9 stream9 = .ok out ∧
      out.preds.length = 2 ∧
      out.i_supercrop_in_trials.length = 2 ∧
      out.i_supercrop_stops.length = 2 ∧
      out.supercrop_ys.length = 2 ∧
      ∀ (bi off : Nat) (b : Arr × Arr × Prov), stream9[bi]? = some b → off < batchSize b →
        out.preds[((stream9.take bi).map batchSize).sum + off]?
            = (pf9 b.1)[off]? ∧
        out.i_supercrop_in_trials[((stream9.take bi).map batchSize).sum + off]?
            = b.2.2.iwin[off]? ∧
        out.i_supercrop_stops[((stream9.take bi).map batchSize).sum + off]?
            = b.2.2.istop[off]? ∧
        out.supercrop_ys[((stream9.take bi).map batchSize).sum + off]?
            = b.2.1.vals[off]? :=
  claim_C9_predictor_alignment pf9 stream9 2 (by decide) (by decide) (by decide)
    (by decide) (by decide) (by decide)

/-! ### Claim C10: behaviour on a shuffling iterator -/

/-- The dataset's natural two-batch order for the C10 scenario: window 0
then window 1. -/
def naturalStream10 : List (Arr × Arr × Prov) :=
  [({ hasType := false, dtype := Dtype.other, vals := [1] },
    { hasType := false, dtype := Dtype.other, vals := [0] },
    { iwin := [0], istart := [0], istop := [100] }),
   ({ hasType := false, dtype := Dtype.other, vals := [2] },
    { hasType := false, dtype := Dtype.other, vals := [1] },
    { iwin := [1], istart := [100], istop := [200] })]

/-- The same two batches in shuffled (reversed) order. -/
def shuffledStream10 : List (Arr × Arr × Prov) := naturalStream10.reverse

/-- The spec's requirement for C10, stated for comparison with the code:
invoked on a shuffling iterator — a batch stream that is a permutation of,
but different from, the dataset's natural order — the predictor fails
rather than silently producing output. -/
def predictorRejectsShuffling (predict_proba : Arr → List (List Int))
    (natural : List (Arr × Arr × Prov)) : Prop :=
  ∀ stream : List (Arr × Arr × Prov), stream.Perm natural → stream ≠ natural →
    ∃ m, predict_with_supercrop_inds_and_ys predict_proba stream = .error m

/-- Counterexample to claim C10: on the reversed batch stream the predictor
neither fails nor warns — it silently returns a fully formed result whose
window-in-trial order `[1, 0]` no longer matches the dataset's natural
order. -/
theorem claim_C10_counterexample :
    ¬ predictorRejectsShuffling pf9 naturalStream10 ∧
    ∃ out, predict_with_supercrop_inds_and_ys pf9 shuffledStream10 = .ok out ∧
      out.i_supercrop_in_trials = [1, 0] := by
  constructor
  · intro h
    obtain ⟨m, hm⟩ := h shuffledStream10 (by decide) (by decide)
    rw [show predict_with_supercrop_inds_and_ys pf9 shuffledStream10
        = .ok { preds := [[2], [1]], i_supercrop_in_trials := [1, 0],
                i_supercrop_stops := [200, 100], supercrop_ys := [1, 0] } from rfl] at hm
    exact Except.noConfusion hm
  · exact ⟨_, rfl, rfl⟩

/-- Claim C10 as amended: the predictor performs no shuffle detection; on
any nonempty batch stream — shuffled or not — it silently produces a
result whose arrays follow the iteration order of the stream it was
handed.  Alignment with the dataset's natural order is caller discipline,
not an enforced precondition. -/
theorem claim_C10_amended_no_shuffle_check (predict_proba : Arr → List (List Int))
    (stream : List (Arr × Arr × Prov)) (hne : stream ≠ []) :
    ∃ out, predict_with_supercrop_inds_and_ys predict_proba stream = .ok out ∧
      out.i_supercrop_in_trials = (stream.map (fun b => b.2.2.iwin)).flatten ∧
      out.supercrop_ys = (stream.map (fun b => b.2.1.vals)).flatten := by
  have hempty : ¬ (stream.isEmpty = true) := by
    rw [List.isEmpty_iff]
    exact hne
  refine ⟨{ preds := (stream.map (fun b => predict_proba b.1)).flatten,
            i_supercrop_in_trials := (stream.map (fun b => b.2.2.iwin)).flatten,
            i_supercrop_stops := (stream.map (fun b => b.2.2.istop)).flatten,
            supercrop_ys := (stream.map (fun b => b.2.1.vals)).flatten },
    ?_, rfl, rfl⟩
  show (if stream.isEmpty then _ else _) = _
  rw [if_neg hempty]

/-- Witness for the amended C10 on the shuffled stream. -/
theorem claim_C10_witness :
    ∃ out, predict_with_supercrop_inds_and_ys pf9 shuffledStream10 = .ok out ∧
      out.i_supercrop_in_trials = (shuffledStream10.map (fun b => b.2.2.iwin)).flatten ∧
      out.supercrop_ys = (shuffledStream10.map (fun b => b.2.1.vals)).flatten :=
  claim_C10_amended_no_shuffle_check pf9 shuffledStream10 (by decide)

end Braindecode
